import Mathlib

/-!
Shallow embedding of `src/notebooks/base.py` (`BaseScript`): the per-prefix
rotation counter map set up in `__init__` (line 58), the writer
`_write_json_files` (lines 86-124) and the reader `_read_json_files`
(lines 128-169).

Conventions of the embedding:
* Machine state that the Python methods mutate (`self.__file_counter`,
  `self.__current_file_name`, the output directory tree) is threaded
  explicitly through a `ScriptState`.
* The output tree is recorded as the ordered list of append events (each
  `open("a") / json.dump / write("\n") / close` of one line); a file's
  content is the ordered sublist of events addressed to it.
* The source renders the output folder name as
  `file_prefix + "_" + create_time` (line 106) and the file name as
  `file_prefix + "_" + files_written + ".json"` (line 112).  Both renderings
  are injective in the (name, counter) pair, so events address folders and
  files by those pairs; `renderFileName` keeps the rendered string for the
  `self.__current_file_name` comparison of line 113.
* `create_time` is stored by the source as the decimal string of an integer
  Unix timestamp; we keep the integer.  The current clock is passed in as a
  `now : Nat` argument.
* Records are abstract: the writer takes records already serialized by
  `json.dump(content.as_dict())` (line 118), and `writeRecords` is the
  wrapper that serializes; the reader is parameterized by `json.loads`
  (partial: `Option`-valued, `none` = `json.JSONDecodeError`) and by the
  pydantic constructor `avro_type(**·)` (`none` = `pydantic.ValidationError`).
-/

/-- One entry of `BaseScript.__file_counter` (base.py line 58):
`[files_written, rows_written, create_time]`. -/
abbrev Entry := Nat × Nat × Nat

/-- The per-prefix counter map `self.__file_counter` (line 58); `none` means
the key has never been accessed. -/
abbrev Counter := String → Option Entry

/-- One appended line of output: the folder `(file_prefix, create_time)`
(line 106), the file `(file_prefix, files_written)` (line 112), and the
written line (lines 117-119). -/
structure WEvent where
  folder : String × Nat
  file : String × Nat
  line : String
deriving DecidableEq

/-- The state of a `BaseScript` that `_write_json_files` reads or writes:
the counter map, `self.__current_file_name` (line 59), the ordered append
events of the output tree, and the set of created output directories. -/
structure ScriptState where
  fileCounter : Counter
  currentFileName : String
  events : List WEvent
  dirs : List (String × Nat)

/-- The state right after `BaseScript.__init__` (lines 58-59). -/
def initState : ScriptState :=
  { fileCounter := fun _ => none, currentFileName := "", events := [], dirs := [] }

/-- Line 124 (and the `defaultdict` insertion): store an entry under a key. -/
def counterSet (m : Counter) (p : String) (e : Entry) : Counter :=
  fun q => if q = p then some e else m q

/-- A `defaultdict` read `self.__file_counter[p]`: returns the entry and the
(possibly extended) map, creating `[0, 0, now]` on a miss — the default
factory of line 58 evaluates the clock when the entry is created. -/
def counterGetOrCreate (m : Counter) (p : String) (now : Nat) : Entry × Counter :=
  match m p with
  | some e => (e, m)
  | none => ((0, 0, now), counterSet m p (0, 0, now))

/-- Line 120: `self.__file_counter[file_prefix][1] += 1` (a `defaultdict`
read followed by an in-place row-count increment). -/
def counterIncRow (m : Counter) (p : String) (now : Nat) : Counter :=
  let e := (counterGetOrCreate m p now).1
  counterSet (counterGetOrCreate m p now).2 p (e.1, e.2.1 + 1, e.2.2)

/-- The rendered file name `f"{file_prefix}_{files_written}.json"` of
line 112. -/
def renderFileName (p : String) (i : Nat) : String :=
  p ++ "_" ++ Nat.repr i ++ ".json"

/-- Lines 120-124 as a transformation of the stored counter map: increment
the stored row count (line 120), re-read the entry (line 121), and when the
re-read row count has reached 200 store `[files_written + 1, 0, create_time]`
(lines 123-124). -/
def loopCounterUpd (m : Counter) (p : String) (now : Nat) : Counter :=
  let m1 := counterIncRow m p now
  let e1 := (counterGetOrCreate m1 p now).1
  let m2 := (counterGetOrCreate m1 p now).2
  if 200 ≤ e1.2.1 then counterSet m2 p (e1.1 + 1, 0, e1.2.2) else m2

/-- The `for content in contents` loop of `_write_json_files`
(lines 111-124).  `files`, `rows`, `ct` are the Python locals
`files_written`, `rows_written`, `create_time` (rebound at line 121 from the
stored counter after each increment); the stored counter is incremented at
line 120 and rotated at lines 123-124 when the re-read row count has reached
200.  Each record's line is appended (open in mode "a", write, close) before
the next record is processed. -/
def writeLoop (p : String) (now : Nat) (folder : String × Nat)
    (serialized : List String) (files rows ct : Nat) (s : ScriptState) :
    ScriptState :=
  match serialized with
  | [] => s
  | l :: rest =>
    let s1 : ScriptState :=
      { s with currentFileName := renderFileName p files,
               events := s.events ++ [⟨folder, (p, files), l⟩] }
    let e1 := (counterGetOrCreate (counterIncRow s1.fileCounter p now) p now).1
    writeLoop p now folder rest e1.1 e1.2.1 e1.2.2
      { s1 with fileCounter := loopCounterUpd s1.fileCounter p now }

/-- `_write_json_files(self, file_prefix, *contents)` (lines 86-124), with
the records already serialized to their JSON lines and `now` the current
Unix timestamp.  Line 104 reads (and on first use creates) the prefix's
counter entry, line 106 fixes the session output folder, lines 108-109
create the folder when both counters are zero, and lines 111-124 run the
write loop. -/
def writeJsonFiles (now : Nat) (p : String) (serialized : List String)
    (s : ScriptState) : ScriptState :=
  let e := (counterGetOrCreate s.fileCounter p now).1
  let m0 := (counterGetOrCreate s.fileCounter p now).2
  let folder : String × Nat := (p, e.2.2)
  let dirs1 :=
    if e.1 = 0 ∧ e.2.1 = 0 then
      (if folder ∈ s.dirs then s.dirs else s.dirs ++ [folder])
    else s.dirs
  writeLoop p now folder serialized e.1 e.2.1 e.2.2
    { s with fileCounter := m0, dirs := dirs1 }

/-- `_write_json_files` on unserialized records: line 118 serializes each
record as `json.dump(content.as_dict())`. -/
def writeRecords {α J : Type} (asDict : α → J) (dump : J → String) (now : Nat)
    (p : String) (contents : List α) (s : ScriptState) : ScriptState :=
  writeJsonFiles now p (contents.map fun c => dump (asDict c)) s

/-- The net effect of lines 120-124 on the stored pair
`(files_written, rows_written)`: increment the row count and, when it
reaches 200, reset it to 0 and advance the file count.  This is the spec's
`RotationTracker.recordWrite`. -/
def recordWrite (fr : Nat × Nat) : Nat × Nat :=
  if 200 ≤ fr.2 + 1 then (fr.1 + 1, 0) else (fr.1, fr.2 + 1)

/-- The content of one output file: the lines of the events addressed to
`(folder, file)`, in append order. -/
def fileLines (s : ScriptState) (folder file : String × Nat) : List String :=
  (s.events.filter fun e => decide (e.folder = folder ∧ e.file = file)).map
    (fun e => e.line)

/-- The (folder, file) address of an append event. -/
def eventKey (e : WEvent) : (String × Nat) × (String × Nat) :=
  (e.folder, e.file)

/-- The output files of a state, keyed in first-written order: for each
distinct (folder, file) address, that file's lines. -/
def outputFiles (s : ScriptState) : List (List String) :=
  ((s.events.map eventKey).dedup).map fun k =>
    (s.events.filter fun e => decide (eventKey e = k)).map (fun e => e.line)

/-- A sequence of `_write_json_files` calls on a freshly initialized script;
each call is `(now, file_prefix, serialized records)`. -/
def runWrites (ops : List (Nat × String × List String)) : ScriptState :=
  ops.foldl (fun s op => writeJsonFiles op.1 op.2.1 op.2.2 s) initState

/-- The line loop of `_read_json_files` over one input file
(lines 154-163), parameterized by `json.loads` and the record constructor.
Per line: `avro_type(**json.loads(line))` succeeds → count a success and
yield; the constructor fails pydantic validation → the warning of line 161
re-runs `json.loads(line)` (which succeeds again), the failure counter of
line 162 is incremented and the loop continues; `json.loads` itself fails →
the `except` body's warning re-runs `json.loads(line)`, which raises
`json.JSONDecodeError` *outside* the `try`, so the failure counter is never
reached and the exception escapes the generator.  Returns
(yielded records, successes, failures, escaped exception?). -/
def readFile {J R : Type} (loads : String → Option J) (mk : J → Option R) :
    List String → List R × Nat × Nat × Bool
  | [] => ([], 0, 0, false)
  | l :: rest =>
    match loads l with
    | none => ([], 0, 0, true)
    | some j =>
      match mk j with
      | some r =>
        let t := readFile loads mk rest
        (r :: t.1, t.2.1 + 1, t.2.2.1, t.2.2.2)
      | none =>
        let t := readFile loads mk rest
        (t.1, t.2.1, t.2.2.1 + 1, t.2.2.2)

/-- The file loop of `_read_json_files` (lines 151-163) over the globbed
files' line lists; counters accumulate across files, and an exception that
escapes one file's loop aborts the remaining files (and skips the final
tally log of lines 165-169). -/
def readFiles {J R : Type} (loads : String → Option J) (mk : J → Option R) :
    List (List String) → List R × Nat × Nat × Bool
  | [] => ([], 0, 0, false)
  | f :: fs =>
    let t := readFile loads mk f
    if t.2.2.2 then (t.1, t.2.1, t.2.2.1, true)
    else
      let u := readFiles loads mk fs
      (t.1 ++ u.1, t.2.1 + u.2.1, t.2.2.1 + u.2.2.1, u.2.2.2)

/-- fnmatch-style wildcard match on one path component, as `Path.glob`
(line 151) applies its pattern to each directory-entry name: a literal
character matches itself, and a star matches any (possibly empty) run of
characters — realized by letting the rest of the pattern match some suffix
of the rest of the name. -/
def globMatch : List Char → List Char → Bool
  | [], cs => cs.isEmpty
  | p :: ps2, cs =>
    if p = '*' then cs.tails.any (fun b => globMatch ps2 b)
    else
      match cs with
      | [] => false
      | c :: cs2 => (p = c) && globMatch ps2 cs2

/-- The glob pattern `"*.json"` of line 151. -/
def starJsonPat : List Char := ['*', '.', 'j', 's', 'o', 'n']

/-- A file of the input directory tree passed to `_read_json_files`,
addressed by its path components relative to that directory, with its
lines. -/
structure DirEnt where
  relPath : List String
  fileText : List String
deriving DecidableEq

/-- Whether `glob("*.json")` selects the entry: only direct children (one
path component) are matched, against the non-recursive pattern. -/
def entryMatches (e : DirEnt) : Bool :=
  match e.relPath with
  | [n] => globMatch starJsonPat n.data
  | _ => false

/-- Line 151: the files enumerated by `(self.input_folder / path).glob("*.json")`. -/
def globJson (d : List DirEnt) : List DirEnt :=
  d.filter entryMatches

/-- `_read_json_files` over a directory: read every globbed file in
enumeration order. -/
def readDir {J R : Type} (loads : String → Option J) (mk : J → Option R)
    (d : List DirEnt) : List R × Nat × Nat × Bool :=
  readFiles loads mk ((globJson d).map (fun e => e.fileText))

/-! ### Counter-map lemmas -/

theorem counterSet_self (m : Counter) (p : String) (e : Entry) :
    counterSet m p e p = some e := by
  simp [counterSet]

theorem counterSet_ne (m : Counter) (p : String) (e : Entry) (q : String)
    (h : q ≠ p) : counterSet m p e q = m q := by
  simp [counterSet, h]

theorem counterGetOrCreate_some (m : Counter) (p : String) (now : Nat)
    (e : Entry) (h : m p = some e) :
    counterGetOrCreate m p now = (e, m) := by
  simp [counterGetOrCreate, h]

theorem counterGetOrCreate_none (m : Counter) (p : String) (now : Nat)
    (h : m p = none) :
    counterGetOrCreate m p now = ((0, 0, now), counterSet m p (0, 0, now)) := by
  simp [counterGetOrCreate, h]

theorem counterGetOrCreate_snd_ne (m : Counter) (p : String) (now : Nat)
    (q : String) (h : q ≠ p) :
    (counterGetOrCreate m p now).2 q = m q := by
  unfold counterGetOrCreate
  cases hm : m p with
  | none => simp [counterSet, h]
  | some e => simp

theorem counterIncRow_ne (m : Counter) (p : String) (now : Nat) (q : String)
    (h : q ≠ p) : counterIncRow m p now q = m q := by
  unfold counterIncRow
  simp only [counterSet_ne _ _ _ _ h]
  exact counterGetOrCreate_snd_ne m p now q h

theorem counterIncRow_self (m : Counter) (p : String) (now : Nat) (f r t : Nat)
    (h : m p = some (f, r, t)) :
    counterIncRow m p now p = some (f, r + 1, t) := by
  unfold counterIncRow
  rw [counterGetOrCreate_some m p now _ h]
  exact counterSet_self _ _ _

/-- A `defaultdict` row increment always leaves `rows_written + 1` at the
key, whatever the entry (present or freshly created) was. -/
theorem counterIncRow_self_any (m : Counter) (p : String) (now : Nat) :
    counterIncRow m p now p =
      some ((counterGetOrCreate m p now).1.1,
        (counterGetOrCreate m p now).1.2.1 + 1,
        (counterGetOrCreate m p now).1.2.2) := by
  unfold counterIncRow
  exact counterSet_self _ _ _

/-! ### The stored counter under the write loop -/

theorem loopCounterUpd_ne (m : Counter) (p : String) (now : Nat) (q : String)
    (h : q ≠ p) : loopCounterUpd m p now q = m q := by
  simp only [loopCounterUpd]
  split
  · rw [counterSet_ne _ _ _ _ h, counterGetOrCreate_snd_ne _ _ _ _ h,
      counterIncRow_ne _ _ _ _ h]
  · rw [counterGetOrCreate_snd_ne _ _ _ _ h, counterIncRow_ne _ _ _ _ h]

/-- On a present entry, lines 120-124 advance the stored pair by
`recordWrite` and keep the `create_time`. -/
theorem loopCounterUpd_some (m : Counter) (p : String) (now : Nat)
    (f r t : Nat) (h : m p = some (f, r, t)) :
    loopCounterUpd m p now p =
      some ((recordWrite (f, r)).1, (recordWrite (f, r)).2, t) := by
  have hinc : counterIncRow m p now p = some (f, r + 1, t) :=
    counterIncRow_self _ _ _ _ _ _ h
  simp only [loopCounterUpd, counterGetOrCreate_some _ _ _ _ hinc]
  by_cases hrot : 200 ≤ r + 1
  · simp only [hrot, if_pos, recordWrite, if_true]
    exact counterSet_self _ _ _
  · simp only [hrot, if_neg, not_false_iff, recordWrite, if_false]
    exact hinc

/-- Whatever the stored entry was, after lines 120-124 the stored row count
at the key is below 200. -/
theorem loopCounterUpd_rows_lt (m : Counter) (p : String) (now : Nat)
    (f r t : Nat) (h : loopCounterUpd m p now p = some (f, r, t)) :
    r < 200 := by
  have h1 := counterIncRow_self_any m p now
  simp only [loopCounterUpd, counterGetOrCreate_some _ _ _ _ h1] at h
  split at h
  · rw [counterSet_self] at h
    cases h
    omega
  · rw [h1] at h
    cases h
    omega

/-- One pass of the loop body advances the stored pair at the written key by
`recordWrite` and keeps its `create_time`. -/
theorem writeLoop_counter (p : String) (now : Nat) (folder : String × Nat)
    (ls : List String) (files rows ct : Nat) (s : ScriptState) (f r t : Nat)
    (h : s.fileCounter p = some (f, r, t)) :
    (writeLoop p now folder ls files rows ct s).fileCounter p =
      some ((recordWrite^[ls.length] (f, r)).1,
        (recordWrite^[ls.length] (f, r)).2, t) := by
  induction ls generalizing files rows ct f r s with
  | nil => simpa using h
  | cons l rest ih =>
    rw [writeLoop, List.length_cons, Function.iterate_succ_apply]
    exact ih _ _ _ _ (recordWrite (f, r)).1 (recordWrite (f, r)).2
      (loopCounterUpd_some _ _ _ _ _ _ h)

/-- The loop never touches another key's entry. -/
theorem writeLoop_counter_ne (p : String) (now : Nat) (folder : String × Nat)
    (ls : List String) (files rows ct : Nat) (s : ScriptState) (q : String)
    (h : q ≠ p) :
    (writeLoop p now folder ls files rows ct s).fileCounter q =
      s.fileCounter q := by
  induction ls generalizing files rows ct s with
  | nil => rfl
  | cons l rest ih =>
    rw [writeLoop, ih]
    exact loopCounterUpd_ne _ _ _ _ h

/-- The iterated tracker step from a fresh entry counts files and rows as
division and remainder by 200. -/
theorem iterate_recordWrite (N : Nat) :
    recordWrite^[N] (0, 0) = (N / 200, N % 200) := by
  induction N with
  | zero => simp
  | succ n ih =>
    rw [Function.iterate_succ_apply', ih]
    unfold recordWrite
    split
    · refine Prod.ext ?_ ?_ <;> simp <;> omega
    · refine Prod.ext ?_ ?_ <;> simp <;> omega

/-- C3: for every N ≥ 1, after the Nth row-write the stored counters are
`filesWritten = (N-1)/200` and `rowsWritten = (N-1) % 200 + 1`, except that
exactly when N is a multiple of 200 the row count wraps to 0 and the file
count is incremented. -/
theorem recordWrite_nth (N : Nat) (h : 1 ≤ N) :
    recordWrite^[N] (0, 0) =
      if N % 200 = 0 then ((N - 1) / 200 + 1, 0)
      else ((N - 1) / 200, (N - 1) % 200 + 1) := by
  rw [iterate_recordWrite]
  split
  · refine Prod.ext ?_ ?_ <;> simp <;> omega
  · refine Prod.ext ?_ ?_ <;> simp <;> omega

theorem recordWrite_nth_witness :
    1 ≤ 400 ∧ recordWrite^[400] (0, 0) = (2, 0) := by
  refine ⟨by norm_num, ?_⟩
  rw [recordWrite_nth 400 (by norm_num)]
  norm_num

/-! ### Row-count invariant (C4) -/

/-- Every stored counter entry has `rows_written < 200`. -/
def counterInv (s : ScriptState) : Prop :=
  ∀ p f r t, s.fileCounter p = some (f, r, t) → r < 200

theorem writeLoop_inv (p : String) (now : Nat) (folder : String × Nat)
    (ls : List String) (files rows ct : Nat) (s : ScriptState)
    (h : counterInv s) :
    counterInv (writeLoop p now folder ls files rows ct s) := by
  induction ls generalizing files rows ct s with
  | nil => exact h
  | cons l rest ih =>
    rw [writeLoop]
    apply ih
    intro q f r t hq
    dsimp only at hq
    by_cases hqp : q = p
    · subst hqp
      exact loopCounterUpd_rows_lt _ _ _ _ _ _ hq
    · rw [loopCounterUpd_ne _ _ _ _ hqp] at hq
      exact h q f r t hq

theorem writeJsonFiles_inv (now : Nat) (p : String) (ls : List String)
    (s : ScriptState) (h : counterInv s) :
    counterInv (writeJsonFiles now p ls s) := by
  rw [writeJsonFiles]
  apply writeLoop_inv
  intro q f r t hq
  dsimp only at hq
  by_cases hqp : q = p
  · subst hqp
    cases hm : s.fileCounter q with
    | none =>
      simp only [counterGetOrCreate_none _ _ _ hm, counterSet_self] at hq
      simp only [Option.some.injEq, Prod.mk.injEq] at hq
      omega
    | some e =>
      simp only [counterGetOrCreate_some _ _ _ _ hm] at hq
      exact h q f r t hq
  · rw [counterGetOrCreate_snd_ne _ _ _ _ hqp] at hq
    exact h q f r t hq

theorem initState_inv : counterInv initState := by
  intro p f r t h
  simp [initState] at h

theorem foldlWrites_inv (ops : List (Nat × String × List String))
    (s : ScriptState) (h : counterInv s) :
    counterInv (ops.foldl (fun s2 op => writeJsonFiles op.1 op.2.1 op.2.2 s2) s) := by
  induction ops generalizing s with
  | nil => exact h
  | cons op rest ih => exact ih _ (writeJsonFiles_inv _ _ _ _ h)

/-- C4: after every completed sequence of writer operations from a freshly
initialized script, every stored `rows_written` counter lies in [0, 200):
any write that would make it reach 200 resets it to 0 and increments
`files_written` in the same step. -/
theorem runWrites_rows_lt (ops : List (Nat × String × List String))
    (p : String) (f r t : Nat)
    (h : (runWrites ops).fileCounter p = some (f, r, t)) : r < 200 :=
  foldlWrites_inv ops initState initState_inv p f r t h

theorem runWrites_rows_lt_witness :
    (runWrites [(0, "p", ["a"])]).fileCounter "p" = some (0, 1, 0) ∧ 1 < 200 :=
  ⟨by decide, runWrites_rows_lt [(0, "p", ["a"])] "p" 0 1 0 (by decide)⟩

/-! ### Frame properties of the writer (C5, C10) -/

/-- A writer call for one file prefix leaves every other prefix's stored
entry untouched. -/
theorem writeJsonFiles_counter_ne (now : Nat) (a : String) (ls : List String)
    (s : ScriptState) (b : String) (hab : a ≠ b) :
    (writeJsonFiles now a ls s).fileCounter b = s.fileCounter b := by
  rw [writeJsonFiles, writeLoop_counter_ne _ _ _ _ _ _ _ _ _ (Ne.symm hab)]
  exact counterGetOrCreate_snd_ne _ _ _ _ (Ne.symm hab)

/-- C5: a writer call for prefix `a` leaves the rotation state of every
other prefix `b` unchanged, and for every prefix with existing state the
`sessionTimestamp` component survives every later writer call (any prefix,
any batch) unchanged. -/
theorem writeJsonFiles_frame (now : Nat) (a : String) (ls : List String)
    (s : ScriptState) (b : String) :
    (a ≠ b → (writeJsonFiles now a ls s).fileCounter b = s.fileCounter b) ∧
    (∀ f r t, s.fileCounter b = some (f, r, t) →
      ∃ f2 r2, (writeJsonFiles now a ls s).fileCounter b = some (f2, r2, t)) := by
  constructor
  · exact writeJsonFiles_counter_ne now a ls s b
  · intro f r t hb
    by_cases hab : a = b
    · subst hab
      rw [writeJsonFiles]
      refine ⟨(recordWrite^[ls.length] (f, r)).1,
        (recordWrite^[ls.length] (f, r)).2, ?_⟩
      apply writeLoop_counter
      dsimp only
      simp only [counterGetOrCreate_some _ _ _ _ hb]
      exact hb
    · exact ⟨f, r, (writeJsonFiles_counter_ne now a ls s b hab).trans hb⟩

theorem writeJsonFiles_frame_witness :
    ((writeJsonFiles 0 "a" ["z"] (runWrites [(5, "a", ["x"]), (7, "b", ["y"])])).fileCounter "b" =
      (runWrites [(5, "a", ["x"]), (7, "b", ["y"])]).fileCounter "b") ∧
    ∃ f2 r2,
      (writeJsonFiles 0 "a" ["z"] (runWrites [(5, "a", ["x"]), (7, "b", ["y"])])).fileCounter "a" =
        some (f2, r2, 5) :=
  ⟨(writeJsonFiles_frame 0 "a" ["z"] (runWrites [(5, "a", ["x"]), (7, "b", ["y"])]) "b").1
      (by decide),
   (writeJsonFiles_frame 0 "a" ["z"] (runWrites [(5, "a", ["x"]), (7, "b", ["y"])]) "a").2
      0 1 5 (by decide)⟩

/-- C10: a writer call with an empty batch on a fresh prefix still creates
the prefix's rotation state as `[0, 0, now]` and registers the session
output directory, while appending no line to any file. -/
theorem writeJsonFiles_empty_fresh (now : Nat) (p : String) (s : ScriptState)
    (h : s.fileCounter p = none) :
    (writeJsonFiles now p [] s).fileCounter p = some (0, 0, now) ∧
    (writeJsonFiles now p [] s).events = s.events ∧
    (p, now) ∈ (writeJsonFiles now p [] s).dirs := by
  rw [writeJsonFiles]
  simp only [counterGetOrCreate_none _ _ _ h]
  rw [writeLoop]
  refine ⟨counterSet_self _ _ _, rfl, ?_⟩
  dsimp only
  split
  · split
    · assumption
    · exact List.mem_append_right _ (List.mem_singleton_self _)
  · next hc => exact absurd (by simp) hc

theorem writeJsonFiles_empty_fresh_witness :
    (writeJsonFiles 3 "p" [] initState).fileCounter "p" = some (0, 0, 3) ∧
    (writeJsonFiles 3 "p" [] initState).events = initState.events ∧
    ("p", 3) ∈ (writeJsonFiles 3 "p" [] initState).dirs :=
  writeJsonFiles_empty_fresh 3 "p" initState rfl

/-! ### Append order of the write loop (C7, C1) -/

theorem writeLoop_events (p : String) (now : Nat) (folder : String × Nat)
    (ls : List String) (files rows ct : Nat) (s : ScriptState) :
    ∃ evs : List WEvent,
      (writeLoop p now folder ls files rows ct s).events = s.events ++ evs ∧
      evs.map (fun e => e.line) = ls := by
  induction ls generalizing files rows ct s with
  | nil => exact ⟨[], by simp [writeLoop], rfl⟩
  | cons l rest ih =>
    rw [writeLoop]
    obtain ⟨evs, h1, h2⟩ :=
      ih (counterGetOrCreate (counterIncRow s.fileCounter p now) p now).1.1
        (counterGetOrCreate (counterIncRow s.fileCounter p now) p now).1.2.1
        (counterGetOrCreate (counterIncRow s.fileCounter p now) p now).1.2.2
        { s with currentFileName := renderFileName p files,
                 events := s.events ++ [⟨folder, (p, files), l⟩],
                 fileCounter := loopCounterUpd s.fileCounter p now }
    refine ⟨⟨folder, (p, files), l⟩ :: evs, ?_, ?_⟩
    · rw [show s.events ++ (⟨folder, (p, files), l⟩ :: evs) =
        (s.events ++ [⟨folder, (p, files), l⟩]) ++ evs by simp]
      exact h1
    · simpa using h2

/-- C7: the records of one writer call are appended one JSON line each, in
exactly the order given in the call — no reordering, no deduplication, no
buffering across records (each line's append event precedes the next
record's). -/
theorem writeRecords_order {α J : Type} (asDict : α → J) (dump : J → String)
    (now : Nat) (p : String) (contents : List α) (s : ScriptState) :
    ∃ evs : List WEvent,
      (writeRecords asDict dump now p contents s).events = s.events ++ evs ∧
      evs.map (fun e => e.line) = contents.map (fun c => dump (asDict c)) := by
  rw [writeRecords, writeJsonFiles]
  exact writeLoop_events _ _ _ _ _ _ _ _

set_option maxRecDepth 40000 in
/-- C1 (claim refuted, code bug): a single call writing 201 records to a
fresh prefix does not spread them 200/1 over two files.  After the rotation
at record 200 the loop's `files_written` local (rebound at line 121 before
the rotation of line 124) is stale, so record 201 is still appended to file
0: `p_0.json` receives all 201 lines and `p_1.json` receives none, contrary
to the claimed 200-line / 1-line split. -/
theorem write_201_one_call :
    (fileLines (writeJsonFiles 0 "p" (List.replicate 201 "x") initState)
      ("p", 0) ("p", 0)).length = 201 ∧
    (fileLines (writeJsonFiles 0 "p" (List.replicate 201 "x") initState)
      ("p", 0) ("p", 1)).length = 0 := by
  constructor
  · rfl
  · rfl

/-- C2 (claim refuted, code bug): on a malformed-JSON line the reader does
not count a failure and continue — the warning of line 161 re-runs
`json.loads(line)` inside the `except` body, and that second
`JSONDecodeError` escapes the generator.  With one valid line followed by
one invalid-JSON line, the reader yields the one valid record, the success
count is 1, the failure count stays 0, and an exception escapes (instead of
the claimed counts 1/1 with normal termination). -/
theorem read_malformed_line_raises :
    readFiles (fun l => if l = "ok" then some 0 else none)
      (fun j : Nat => some j) [["ok", "bad"]] = ([0], 1, 0, true) := by
  rfl

/-! ### Glob semantics (C6, C8) -/

/-- A star-free pattern matches exactly itself. -/
theorem globMatch_noStar (ps : List Char) (h : '*' ∉ ps) :
    ∀ cs : List Char, globMatch ps cs = true ↔ cs = ps := by
  induction ps with
  | nil =>
    intro cs
    cases cs <;> simp [globMatch]
  | cons p ps2 ih =>
    intro cs
    have hp : ¬ p = '*' := by
      intro hp
      exact h (hp ▸ List.mem_cons_self p ps2)
    have h2 : '*' ∉ ps2 := fun hm => h (List.mem_cons_of_mem _ hm)
    cases cs with
    | nil => simp [globMatch, hp]
    | cons c cs2 =>
      simp only [globMatch, hp, if_false, Bool.and_eq_true, decide_eq_true_eq,
        ih h2 cs2, List.cons.injEq]
      constructor
      · rintro ⟨rfl, rfl⟩
        exact ⟨rfl, rfl⟩
      · rintro ⟨rfl, rfl⟩
        exact ⟨rfl, rfl⟩

/-- A leading star lets the rest of the pattern match any suffix. -/
theorem globMatch_star (ps : List Char) (cs : List Char) :
    globMatch ('*' :: ps) cs = true ↔
      ∃ a b : List Char, cs = a ++ b ∧ globMatch ps b = true := by
  simp only [globMatch, eq_self_iff_true, if_true, List.any_eq_true,
    List.mem_tails]
  constructor
  · rintro ⟨b, hb, hm⟩
    obtain ⟨a, rfl⟩ := hb
    exact ⟨a, b, rfl, hm⟩
  · rintro ⟨a, b, rfl, hm⟩
    exact ⟨b, ⟨a, rfl⟩, hm⟩

/-- The glob pattern of line 151 selects exactly the names that end in
".json". -/
theorem globMatch_starJson (n : List Char) :
    globMatch starJsonPat n = true ↔
      ∃ a : List Char, n = a ++ ['.', 'j', 's', 'o', 'n'] := by
  rw [show starJsonPat = '*' :: ['.', 'j', 's', 'o', 'n'] from rfl,
    globMatch_star]
  constructor
  · rintro ⟨a, b, rfl, hb⟩
    rw [globMatch_noStar _ (by decide) b] at hb
    exact ⟨a, by rw [hb]⟩
  · rintro ⟨a, rfl⟩
    exact ⟨a, _, rfl, (globMatch_noStar _ (by decide) _).mpr rfl⟩

/-- C8: the reader enumerates exactly the files matching the `*.json` glob
directly under the given directory — single path component (non-recursive)
whose name ends in ".json" — and reads exactly those files; entries in
subdirectories or with other names are never read. -/
theorem globJson_spec (d : List DirEnt) (e : DirEnt) :
    (e ∈ globJson d ↔
      e ∈ d ∧ ∃ nm : String, ∃ a : List Char,
        e.relPath = [nm] ∧ nm.data = a ++ ['.', 'j', 's', 'o', 'n']) ∧
    ∀ (J R : Type) (loads : String → Option J) (mk : J → Option R),
      readDir loads mk d =
        readFiles loads mk ((globJson d).map (fun x => x.fileText)) := by
  refine ⟨?_, fun J R loads mk => rfl⟩
  rw [globJson, List.mem_filter]
  constructor
  · rintro ⟨hd, hm⟩
    refine ⟨hd, ?_⟩
    unfold entryMatches at hm
    split at hm
    · next n heq =>
      obtain ⟨a, ha⟩ := (globMatch_starJson n.data).mp hm
      exact ⟨n, a, heq, ha⟩
    · exact absurd hm (by simp)
  · rintro ⟨hd, nm, a, hpath, hdata⟩
    refine ⟨hd, ?_⟩
    unfold entryMatches
    split
    · next n heq =>
      rw [hpath] at heq
      cases heq
      exact (globMatch_starJson nm.data).mpr ⟨a, hdata⟩
    · next hne =>
      exact absurd (hpath ▸ rfl) (hne nm)

/-- C6: a directory that is empty or contains no entry matching the
`*.json` glob yields an empty sequence, terminates normally, and reports
success and failure counts both 0. -/
theorem readDir_no_match {J R : Type} (loads : String → Option J)
    (mk : J → Option R) (d : List DirEnt)
    (h : ∀ e ∈ d, entryMatches e = false) :
    readDir loads mk d = ([], 0, 0, false) := by
  have hg : globJson d = [] := List.filter_eq_nil_iff.mpr (by
    intro a ha
    simp [h a ha])
  rw [readDir, hg]
  rfl

theorem readDir_no_match_witness :
    readDir (fun _ => (none : Option Nat)) (fun j => some j)
      [⟨["notes.txt"], ["hello"]⟩] = ([], 0, 0, false) :=
  readDir_no_match _ _ _ (by decide)

/-! ### Round trip (C9) -/

/-- When every line of a file parses and validates, the reader yields each
line's record in order and counts no failure. -/
theorem readFile_all_good {J R : Type} (loads : String → Option J)
    (mk : J → Option R) (ls : List String)
    (h : ∀ l ∈ ls, ∃ r, (loads l).bind mk = some r) :
    readFile loads mk ls =
      (ls.filterMap (fun l => (loads l).bind mk), ls.length, 0, false) := by
  induction ls with
  | nil => rfl
  | cons l rest ih =>
    obtain ⟨r, hr⟩ := h l (List.mem_cons_self _ _)
    have hrest := ih (fun x hx => h x (List.mem_cons_of_mem _ hx))
    cases hl : loads l with
    | none =>
      rw [hl] at hr
      simp at hr
    | some j =>
      cases hmk : mk j with
      | none =>
        rw [hl] at hr
        simp [hmk] at hr
      | some r2 =>
        simp [readFile, hl, hmk, hrest, List.filterMap_cons]

theorem readFiles_all_good {J R : Type} (loads : String → Option J)
    (mk : J → Option R) (F : List (List String))
    (h : ∀ l ∈ F.flatten, ∃ r, (loads l).bind mk = some r) :
    readFiles loads mk F =
      (F.flatten.filterMap (fun l => (loads l).bind mk), F.flatten.length,
        0, false) := by
  induction F with
  | nil => rfl
  | cons f fs ih =>
    have hf : ∀ l ∈ f, ∃ r, (loads l).bind mk = some r := fun l hl =>
      h l (by rw [List.flatten_cons]; exact List.mem_append_left _ hl)
    have hfs : ∀ l ∈ fs.flatten, ∃ r, (loads l).bind mk = some r := fun l hl =>
      h l (by rw [List.flatten_cons]; exact List.mem_append_right _ hl)
    simp [readFiles, readFile_all_good loads mk f hf, ih hfs,
      List.flatten_cons, List.filterMap_append]

theorem filterMap_of_forall_some {α : Type} (f : α → Option α) (l : List α)
    (h : ∀ x ∈ l, f x = some x) : l.filterMap f = l := by
  induction l with
  | nil => rfl
  | cons a t ih =>
    simp [List.filterMap_cons, h a (List.mem_cons_self _ _),
      ih (fun x hx => h x (List.mem_cons_of_mem _ hx))]

/-- Filtering by a key not equal to `k` ignores the elements with key `k`. -/
theorem filter_key_comm {E K : Type} [DecidableEq K] (key : E → K)
    (k k2 : K) (hne : k2 ≠ k) (evs : List E) :
    (evs.filter fun e => decide (key e = k2)) =
      ((evs.filter fun e => ! decide (key e = k)).filter
        fun e => decide (key e = k2)) := by
  rw [List.filter_filter]
  apply List.filter_congr
  intro e _
  by_cases h : key e = k2
  · simp [h, hne]
  · simp [h]

/-- Splitting a list into its per-key filtered groups, over a duplicate-free
list of keys covering every element, is a permutation of the list. -/
theorem partition_perm {E K : Type} [DecidableEq K] (key : E → K) :
    ∀ (keys : List K) (evs : List E), keys.Nodup →
      (∀ e ∈ evs, key e ∈ keys) →
      List.Perm
        ((keys.map fun k => evs.filter fun e => decide (key e = k)).flatten)
        evs := by
  intro keys
  induction keys with
  | nil =>
    intro evs _ hcov
    have hnil : evs = [] := by
      cases evs with
      | nil => rfl
      | cons e t =>
        exact absurd (hcov e (List.mem_cons_self e t)) (List.not_mem_nil _)
    subst hnil
    simp
  | cons k ks ih =>
    intro evs hnd hcov
    rw [List.map_cons, List.flatten_cons]
    have hkn : k ∉ ks := (List.nodup_cons.mp hnd).1
    have hnd2 := (List.nodup_cons.mp hnd).2
    have hmap : (ks.map fun k2 => evs.filter fun e => decide (key e = k2)) =
        ks.map fun k2 => (evs.filter fun e => ! decide (key e = k)).filter
          fun e => decide (key e = k2) := by
      apply List.map_congr_left
      intro k2 hk2
      exact filter_key_comm key k k2 (fun h => hkn (h ▸ hk2)) evs
    rw [hmap]
    have hcov2 : ∀ e ∈ evs.filter fun e => ! decide (key e = k),
        key e ∈ ks := by
      intro e he
      obtain ⟨hin, hnk⟩ := List.mem_filter.mp he
      simp only [Bool.not_eq_true', decide_eq_false_iff_not] at hnk
      rcases List.mem_cons.mp (hcov e hin) with h | h
      · exact absurd h hnk
      · exact h
    have hperm := ih (evs.filter fun e => ! decide (key e = k)) hnd2 hcov2
    exact (List.Perm.append_left _ hperm).trans (List.filter_append_perm _ evs)

/-- Concatenating a state's output files recovers the multiset of all
appended lines. -/
theorem outputFiles_flatten_perm (s : ScriptState) :
    List.Perm (outputFiles s).flatten (s.events.map fun e => e.line) := by
  rw [outputFiles]
  have h1 : (((s.events.map eventKey).dedup).map fun k =>
      (s.events.filter fun e => decide (eventKey e = k)).map fun e => e.line) =
      ((s.events.map eventKey).dedup.map fun k =>
        s.events.filter fun e => decide (eventKey e = k)).map
          (List.map fun e => e.line) := by
    rw [List.map_map]
    rfl
  rw [h1, ← List.map_flatten]
  apply List.Perm.map
  exact partition_perm eventKey _ _ (List.nodup_dedup _)
    (fun e he => List.mem_dedup.mpr (List.mem_map_of_mem eventKey he))

/-- C9: writing a sequence of valid records to a fresh prefix, then reading
the resulting output files back in any enumeration order with the matching
record type, yields the original records up to permutation, with success
count equal to the number of records, failure count 0 and normal
termination — assuming `json.loads` inverts `json.dump` on each record's
mapping and the record constructor is a left inverse of `as_dict`. -/
theorem write_read_roundtrip {α J : Type} (asDict : α → J) (dump : J → String)
    (loads : String → Option J) (mk : J → Option α) (now : Nat) (p : String)
    (contents : List α) (F : List (List String))
    (hload : ∀ r ∈ contents, loads (dump (asDict r)) = some (asDict r))
    (hmk : ∀ r ∈ contents, mk (asDict r) = some r)
    (hF : List.Perm F
      (outputFiles (writeRecords asDict dump now p contents initState))) :
    List.Perm (readFiles loads mk F).1 contents ∧
    (readFiles loads mk F).2.1 = contents.length ∧
    (readFiles loads mk F).2.2.1 = 0 ∧
    (readFiles loads mk F).2.2.2 = false := by
  obtain ⟨evs, hev1, hev2⟩ : ∃ evs : List WEvent,
      (writeRecords asDict dump now p contents initState).events =
        initState.events ++ evs ∧
      evs.map (fun e => e.line) = contents.map (fun c => dump (asDict c)) := by
    rw [writeRecords, writeJsonFiles]
    exact writeLoop_events _ _ _ _ _ _ _ _
  rw [show initState.events ++ evs = evs from rfl] at hev1
  have hjoin : List.Perm F.flatten (contents.map fun c => dump (asDict c)) := by
    refine ((List.Perm.flatten hF).trans ?_)
    rw [← hev2, ← hev1]
    exact outputFiles_flatten_perm _
  have hgood : ∀ l ∈ F.flatten, ∃ r, (loads l).bind mk = some r := by
    intro l hl
    have : l ∈ contents.map fun c => dump (asDict c) := hjoin.mem_iff.mp hl
    obtain ⟨r, hr, rfl⟩ := List.mem_map.mp this
    exact ⟨r, by rw [hload r hr, Option.some_bind, hmk r hr]⟩
  rw [readFiles_all_good loads mk F hgood]
  refine ⟨?_, ?_, rfl, rfl⟩
  · refine (List.Perm.filterMap _ hjoin).trans ?_
    rw [List.filterMap_map]
    have : ∀ r ∈ contents,
        ((fun l => (loads l).bind mk) ∘ fun c => dump (asDict c)) r = some r := by
      intro r hr
      simp only [Function.comp]
      rw [hload r hr, Option.some_bind, hmk r hr]
    exact (filterMap_of_forall_some _ contents this).symm ▸ List.Perm.refl _
  · rw [hjoin.length_eq, List.length_map]

theorem write_read_roundtrip_witness :
    List.Perm (readFiles
      (fun l => if l = "7" then some 7 else if l = "8" then some 8 else none)
      (fun j : Nat => some j)
      (outputFiles (writeRecords (fun n : Nat => n) Nat.repr 0 "p" [7, 8]
        initState))).1 [7, 8] ∧
    (readFiles
      (fun l => if l = "7" then some 7 else if l = "8" then some 8 else none)
      (fun j : Nat => some j)
      (outputFiles (writeRecords (fun n : Nat => n) Nat.repr 0 "p" [7, 8]
        initState))).2.2.1 = 0 := by
  have h := write_read_roundtrip (fun n : Nat => n) Nat.repr
    (fun l => if l = "7" then some 7 else if l = "8" then some 8 else none)
    (fun j : Nat => some j) 0 "p" [7, 8]
    (outputFiles (writeRecords (fun n : Nat => n) Nat.repr 0 "p" [7, 8]
      initState))
    (by decide) (by decide) (List.Perm.refl _)
  exact ⟨h.1, h.2.2.1⟩
